import Mathlib

/-!
Verification of the boson-lang runtime core against its specification.

The repository holds two crates: `nplangc` (whose `isa/alu.rs` provides the
arithmetic kernels) and `boson` (whose `vm/controls.rs`, `vm/stack.rs` and
`api/mod.rs` provide the instruction handlers, the bounded stacks and the
embedding API).  Each Rust function under scrutiny is translated into a Lean
definition of the same name; machine integers `i64` become `Int` (with
truncating division `Int.tdiv` / remainder `Int.tmod`, matching Rust `/` and
`%`), `f64` values are modelled exactly as rationals (no claim below depends
on rounding), fallible code returns `Except`, and a Rust panic is a distinct
`Outcome` constructor so that crashing and failing with an error are
distinguishable.
-/

set_option maxHeartbeats 1000000

namespace NplangcAlu

/-- Error taxonomy of `nplangc::isa::errors::ISAErrorKind` (the variants used
by `alu.rs`). -/
inductive ISAErrorKind where
  | TypeError
  | DivideByZeroError
  | InvalidOperation
deriving DecidableEq, Repr

/-- `nplangc::isa::errors::ISAError`: a message plus a kind, as built by
`ISAError::new(message, kind)`. -/
structure ISAError where
  message : String
  kind : ISAErrorKind
deriving DecidableEq, Repr

/-- The `nplangc` value variants consumed by the arithmetic kernels.  `i64`
is modelled as `Int`; `f64` is modelled exactly as `Rat` (the claims settled
against these kernels never depend on floating-point rounding, only on which
arithmetic operation each match arm performs and on the zero tests). -/
inductive Object where
  | Int (val : Int)
  | Float (val : Rat)
  | Str (val : String)
  | Bool (val : Bool)
  | Noval
deriving DecidableEq, Repr

/-- Modelled from the spec: each object exposes "a type name (for
diagnostics)" (`Object::get_type`, whose implementation file is not part of
the sources under review).  Only used inside error messages. -/
def Object.get_type : Object → String
  | .Int _ => "int"
  | .Float _ => "float"
  | .Str _ => "string"
  | .Bool _ => "bool"
  | .Noval => "novalue"

/-- Truncation toward zero of a rational, mirroring how Rust truncates when
computing `f64` remainders (`a % b = a - b * trunc(a / b)`). -/
def ratTrunc (q : Rat) : Int :=
  Int.tdiv q.num (q.den : Int)

/-- Rust's `%` on `f64` (remainder with the sign of the dividend), on the
exact rational model. -/
def fmod (a b : Rat) : Rat :=
  a - b * ((ratTrunc (a / b) : Int) : Rat)

namespace Arithmetic

/-- Embedding of `Arithmetic::div` from `src/nplangc/src/isa/alu.rs`
(lines 122-181), arm by arm.  Note that the `(Float, Int)` arm of the source
computes `lval * rval as f64`, a product; the translation reproduces that
product.  The wildcard arm reproduces the source's use of `left.get_type()`
for both operand types. -/
def div (left right : Object) : Except ISAError Object :=
  match left, right with
  | .Int lval, .Int rval =>
    if rval = 0 then
      .error ⟨"Divide by zero " ++ toString lval ++ "/" ++ toString rval, .DivideByZeroError⟩
    else
      .ok (.Int (Int.tdiv lval rval))
  | .Int lval, .Float rval =>
    if rval = 0 then
      .error ⟨"Divide by zero " ++ toString lval ++ "/" ++ toString rval, .DivideByZeroError⟩
    else
      .ok (.Float ((lval : Rat) / rval))
  | .Float lval, .Int rval =>
    if rval = 0 then
      .error ⟨"Divide by zero " ++ toString lval ++ "/" ++ toString rval, .DivideByZeroError⟩
    else
      .ok (.Float (lval * (rval : Rat)))
  | .Float lval, .Float rval =>
    if rval = 0 then
      .error ⟨"Divide by zero " ++ toString lval ++ "/" ++ toString rval, .DivideByZeroError⟩
    else
      .ok (.Float (lval / rval))
  | _, _ =>
    .error ⟨"Operation Div is not applicable between " ++ left.get_type ++ " " ++ left.get_type,
      .TypeError⟩

/-- Embedding of `Arithmetic::modulus` from `src/nplangc/src/isa/alu.rs`
(lines 183-242).  As in `div`, the `(Float, Int)` arm of the source computes
`lval * rval as f64`, a product, which the translation reproduces. -/
def modulus (left right : Object) : Except ISAError Object :=
  match left, right with
  | .Int lval, .Int rval =>
    if rval = 0 then
      .error ⟨"Divide by zero " ++ toString lval ++ "/" ++ toString rval, .DivideByZeroError⟩
    else
      .ok (.Int (Int.tmod lval rval))
  | .Int lval, .Float rval =>
    if rval = 0 then
      .error ⟨"Divide by zero " ++ toString lval ++ "/" ++ toString rval, .DivideByZeroError⟩
    else
      .ok (.Float (fmod (lval : Rat) rval))
  | .Float lval, .Int rval =>
    if rval = 0 then
      .error ⟨"Divide by zero " ++ toString lval ++ "/" ++ toString rval, .DivideByZeroError⟩
    else
      .ok (.Float (lval * (rval : Rat)))
  | .Float lval, .Float rval =>
    if rval = 0 then
      .error ⟨"Divide by zero " ++ toString lval ++ "/" ++ toString rval, .DivideByZeroError⟩
    else
      .ok (.Float (fmod lval rval))
  | _, _ =>
    .error ⟨"Operation Mod is not applicable between " ++ left.get_type ++ " " ++ left.get_type,
      .TypeError⟩

end Arithmetic

/-- An operand of a numeric variant (`Int` or `Float`). -/
def isNumeric : Object → Bool
  | .Int _ => true
  | .Float _ => true
  | _ => false

/-- The zero of a numeric variant: integer `0` or float `0.0` (Rust's
`*rval == 0.0` also accepts `-0.0`, which the exact model identifies with
`0`). -/
def isNumericZero : Object → Bool
  | .Int i => i == 0
  | .Float q => q == 0
  | _ => false

/-- The kind of the error an ALU kernel failed with, if it failed. -/
def errKind (r : Except ISAError Object) : Option ISAErrorKind :=
  match r with
  | .error e => some e.kind
  | .ok _ => none


end NplangcAlu

namespace BosonVm

/-- Error taxonomy of `boson::vm::errors::VMErrorKind`: the variants used by
`vm/stack.rs` and `vm/controls.rs`, completed from the spec's taxonomy (§7).
`IllegalJump` is modelled from the spec (§4.C): the kind of the error
`ExecutionFrame::set_ip` fails with; `errors.rs` itself is not among the
sources under review. -/
inductive VMErrorKind where
  | CallStackOverflow
  | CallStackUnderflow
  | DataStackOverflow
  | DataStackUnderflow
  | GlobalPoolSizeExceeded
  | InvalidGlobalIndex
  | FunctionArgumentsError
  | BuiltinFunctionError
  | IterationError
  | IndexError
  | AttributeError
  | TypeError
  | AssertionError
  | ThreadCreateError
  | ThreadWaitError
  | IllegalOperation
  | StackCorruption
  | UnresolvedBuiltinFunction
  | IllegalJump
deriving DecidableEq, Repr

/-- The instruction kinds mentioned by the embedded handlers
(`boson::isa::InstructionKind`). -/
inductive InstructionKind where
  | IConstant
  | ILoadGlobal
  | IStoreGlobal
  | ILoadLocal
  | IStoreLocal
  | ILoadFree
  | ILoadBuiltIn
  | IAdd
  | ISub
  | IMul
  | IDiv
  | IMod
  | IAnd
  | IOr
  | ILOr
  | ILAnd
  | ILGt
  | ILGte
  | ILLt
  | ILLTe
  | ILEq
  | ILNe
  | INeg
  | ILNot
  | IGetIndex
  | ISetIndex
  | IBuildArray
  | IBuildHash
  | IClosure
  | ICall
  | IRet
  | IRetVal
  | IJump
  | INotJump
  | IIter
  | IIterNext
  | IEnumNext
  | IAssertFail
  | ILaunchThread
  | ILaunchAndJoin
  | IShell
  | IShellRaw
deriving DecidableEq, Repr

/-- `boson::vm::errors::VMError`: taxonomy tag `t`, human message, offending
instruction if known, and bytecode position, as built by
`VMError::new(message, t, instruction, pos)`. -/
structure VMError where
  message : String
  t : VMErrorKind
  instruction : Option InstructionKind
  pos : Nat
deriving DecidableEq, Repr

/-- `VMError::new`. -/
def VMError.new (message : String) (t : VMErrorKind) (instruction : Option InstructionKind)
    (pos : Nat) : VMError :=
  ⟨message, t, instruction, pos⟩

/-- How an embedded computation can go wrong: either it surfaces a `VMError`
(Rust `Err(...)` / `Some(error)`), or the Rust code panics (`unwrap` of a
`None`/`Err`, out-of-bounds `Vec` index).  Distinguishing the two is what
lets a claim about "fails with an error rather than crashing" be settled. -/
inductive Outcome where
  | vmErr (e : VMError)
  | panicked (msg : String)
deriving DecidableEq, Repr

/-- Modelled from the spec: a built-in handle is "a small integer index
identifying an intrinsic" (`boson::types::builtins::BuiltinKind`; the
builtins module is not among the sources under review). -/
structure BuiltinKind where
  index : Nat
deriving DecidableEq, Repr

/-- `CompiledFunction` (spec §3): name, parameter arity, total local-slot
count, and the half-open instruction range into the shared code vector
(modelled as `start_ix`/`end_ix`; the compiler crate is not among the
sources under review, and only `name`, `num_parameters` and `num_locals`
are read by the embedded handlers). -/
structure CompiledFunction where
  name : String
  num_parameters : Nat
  num_locals : Nat
  start_ix : Nat
  end_ix : Nat
deriving DecidableEq, Repr

/-- The `boson` object variants (spec §3, `boson::types::object::Object`).
Containers hold their elements directly (the `Rc`/`RefCell` sharing
structure is flattened into values); a closure context inlines its
subroutine and captured frees, an iterator inlines its source elements and
cursor (spec §3: "source object, a cursor position, and the rule for
advancing"), and a thread handle inlines its worker id and name. -/
inductive Object where
  | Noval
  | Int (val : Int)
  | Float (val : Rat)
  | Str (val : String)
  | Bool (val : Bool)
  | Array (name : String) (elements : List Object)
  | HashTable (name : String) (entries : List (Object × Object))
  | Subroutine (fn : CompiledFunction)
  | ClosureContext (compiled_fn : CompiledFunction) (free_objects : List Object)
  | Builtins (fn : BuiltinKind)
  | Iter (elements : List Object) (pos : Nat)
  | Thread (thread_id : Nat) (name : String)

end BosonVm

namespace BosonVm

/-- Modelled from the spec (§4.A): each object exposes "a type name (for
diagnostics)".  `object.rs` is not among the sources under review; the
names follow the variant names. -/
def Object.get_type : Object → String
  | .Noval => "novalue"
  | .Int _ => "int"
  | .Float _ => "float"
  | .Str _ => "string"
  | .Bool _ => "bool"
  | .Array _ _ => "array"
  | .HashTable _ _ => "hashtable"
  | .Subroutine _ => "subroutine"
  | .ClosureContext _ _ => "closure"
  | .Builtins _ => "builtin"
  | .Iter _ _ => "iterator"
  | .Thread _ _ => "thread"

/-- Modelled from the spec (§4.A): "a describe() rendering (for assertion
failures and printing)", distinct from the type name.  The spec fixes no
exact format; the claims only rely on the renderings of scalars (an integer
prints as its decimal numeral, a string as its contents), so container
renderings are abbreviated to their type names. -/
def Object.describe : Object → String
  | .Noval => "none"
  | .Int i => toString i
  | .Float q => toString q
  | .Str s => s
  | .Bool b => if b then "true" else "false"
  | o => o.get_type

/-- Modelled from the spec (§3): the key variants admitted into hash
tables (integers, floats, booleans, strings; the byte-buffer variant does
not occur in the embedded fragment). -/
def isHashableKey : Object → Bool
  | .Int _ => true
  | .Float _ => true
  | .Bool _ => true
  | .Str _ => true
  | _ => false

/-- Modelled from the spec (§4.A): the typed-equality relation on hash
keys, as used by the Rust `HashMap` through `Object`'s equality
implementation.  Distinct variants never compare equal; unhashable
variants are never equal as keys. -/
def keyEq : Object → Object → Bool
  | .Int a, .Int b => a == b
  | .Float a, .Float b => a == b
  | .Bool a, .Bool b => a == b
  | .Str a, .Str b => a == b
  | _, _ => false

/-- Insertion into the association-list model of `std::collections::HashMap`:
if some entry's key equals the new key, that entry's value is replaced (the
stored key is kept, as `HashMap::insert` keeps the original key); otherwise
the pair is appended. -/
def hashInsert : List (Object × Object) → Object → Object → List (Object × Object)
  | [], k, v => [(k, v)]
  | p :: rest, k, v =>
    if keyEq p.1 k then (p.1, v) :: rest else p :: hashInsert rest k v

/-- Lookup in the association-list model of `HashMap`. -/
def hashLookup (entries : List (Object × Object)) (k : Object) : Option Object :=
  (entries.find? (fun p => keyEq p.1 k)).map Prod.snd

/-- Modelled from the spec (§4.A): `get_indexed(i)`.  Array: integer index,
zero-based, negative counts from the end, out-of-range fails with an index
error; strings behave similarly returning a single-element string; hash:
any admissible key, missing key fails; others fail with a type error.
Returns the Rust `Result<Rc<Object>, String>` as `Except String Object`. -/
def Object.get_indexed (obj idx : Object) : Except String Object :=
  match obj, idx with
  | .Array _ elems, .Int i =>
    let eff : ℤ := if i < 0 then i + (elems.length : ℤ) else i
    if eff < 0 then
      .error "Array index out of range"
    else
      match elems[eff.toNat]? with
      | some x => .ok x
      | none => .error "Array index out of range"
  | .Str s, .Int i =>
    let eff : ℤ := if i < 0 then i + (s.length : ℤ) else i
    if eff < 0 then
      .error "String index out of range"
    else
      match s.toList[eff.toNat]? with
      | some c => .ok (.Str (String.mk [c]))
      | none => .error "String index out of range"
  | .HashTable _ entries, k =>
    match hashLookup entries k with
    | some v => .ok v
    | none => .error "Key not found"
  | o, _ => .error ("Object of type " ++ o.get_type ++ " does not support indexing")

/-- Modelled from the spec (§4.A): `set_indexed(i, v)`.  Array: integer
index with the same range rule as reads, out-of-range fails with an index
error; hash: admissible key inserted or updated, an unhashable key fails
with a type error; others fail with a type error.  The Rust method mutates
its receiver and returns `Option<String>`; the model returns the updated
object or the error. -/
def Object.set_indexed (obj idx v : Object) : Except String Object :=
  match obj, idx with
  | .Array name elems, .Int i =>
    let eff : ℤ := if i < 0 then i + (elems.length : ℤ) else i
    if eff < 0 ∨ (elems.length : ℤ) ≤ eff then
      .error "Array index out of range"
    else
      .ok (.Array name (elems.set eff.toNat v))
  | .HashTable name entries, k =>
    if isHashableKey k then
      .ok (.HashTable name (hashInsert entries k v))
    else
      .error ("Object of type " ++ k.get_type ++ " cannot be used as a hash key")
  | o, _ => .error ("Object of type " ++ o.get_type ++ " does not support index assignment")

/-- Rust's `as usize` on an `i64`: two's-complement wrap into `[0, 2^64)`. -/
def usizeCast (x : Int) : Nat :=
  (x % ((2 : Int) ^ 64)).toNat

/-- Rust's wrapping subtraction on `usize` values below `2^64` (release
behavior of `a - b`; the embedded executions never reach the wrapping
case). -/
def usizeSub (a b : Nat) : Nat :=
  (a + 2 ^ 64 - b) % 2 ^ 64

/-- `boson::vm::stack::DataStack`: the bounded object stack with its
explicit top-of-stack index (`i64`, `-1` when empty) and fixed capacity.
The list keeps the `Vec` order: the last element is the top of stack. -/
structure DataStack where
  stack : List Object
  stack_pointer : Int
  max_size : Nat

/-- `DataStack::new` (capacity comes from the build configuration). -/
def DataStack.new (size : Nat) : DataStack :=
  ⟨[], -1, size⟩

/-- `DataStack::push_object` (`vm/stack.rs` lines 101-115): overflow check
on `(stack_pointer + 1) as usize`, then `Vec::push` and increment. -/
def DataStack.push_object (ds : DataStack) (obj : Object) (inst : InstructionKind) :
    Except Outcome (Int × DataStack) :=
  if usizeCast (ds.stack_pointer + 1) ≥ ds.max_size then
    .error (.vmErr (VMError.new "Stack Overflow!" .DataStackOverflow (some inst) 0))
  else
    .ok (ds.stack_pointer + 1,
      { ds with stack := ds.stack ++ [obj], stack_pointer := ds.stack_pointer + 1 })

/-- `DataStack::push_objects` (`vm/stack.rs` lines 117-136): one capacity
check for the whole batch, then `Vec::extend`. -/
def DataStack.push_objects (ds : DataStack) (inst : InstructionKind) (objects : List Object) :
    Except Outcome (Int × DataStack) :=
  if ds.stack_pointer + (objects.length : Int) ≥ (ds.max_size : Int) then
    .error (.vmErr (VMError.new "Stack Overflow!" .DataStackOverflow (some inst) 0))
  else
    .ok (ds.stack_pointer + (objects.length : Int),
      { ds with stack := ds.stack ++ objects,
                stack_pointer := ds.stack_pointer + (objects.length : Int) })

/-- `DataStack::pop_object` (`vm/stack.rs` lines 138-151): underflow check
on `stack_pointer == -1`, then `Vec::pop().unwrap()` — the unwrap panics if
the vector is empty while the pointer claims otherwise. -/
def DataStack.pop_object (ds : DataStack) (inst : InstructionKind) :
    Except Outcome (Object × DataStack) :=
  if ds.stack_pointer = -1 then
    .error (.vmErr (VMError.new "Stack underflow" .DataStackUnderflow (some inst) 0))
  else
    match ds.stack.getLast? with
    | none => .error (.panicked "DataStack::pop_object unwrapped an empty pop")
    | some obj =>
      .ok (obj, { ds with stack := ds.stack.dropLast, stack_pointer := ds.stack_pointer - 1 })

/-- `DataStack::get_top_ref` (`vm/stack.rs` lines 153-164): underflow check,
then `stack.get(stack_pointer as usize).unwrap()` — panics when the pointer
does not address an element. -/
def DataStack.get_top_ref (ds : DataStack) (inst : InstructionKind) : Except Outcome Object :=
  if ds.stack_pointer = -1 then
    .error (.vmErr (VMError.new "Stack underflow" .DataStackUnderflow (some inst) 0))
  else
    match ds.stack[usizeCast ds.stack_pointer]? with
    | none => .error (.panicked "DataStack::get_top_ref unwrapped a missing element")
    | some obj => .ok obj

/-- `ExecutionFrame` (spec §4.C; `vm/frames.rs` is not among the sources
under review): the closure being executed (subroutine plus captured frees),
the base pointer into the data stack, and the instruction pointer relative
to the subroutine start. -/
structure ExecutionFrame where
  compiled_fn : CompiledFunction
  free_objects : List Object
  base_pointer : Nat
  ip : Nat

/-- `ExecutionFrame::new(closure, bp)`: a fresh frame with `ip = 0`
(spec §4.C). -/
def ExecutionFrame.new (fn : CompiledFunction) (frees : List Object) (bp : Nat) :
    ExecutionFrame :=
  ⟨fn, frees, bp, 0⟩

/-- Modelled from the spec (§4.C): `set_ip(pos)` moves the instruction
pointer; a position outside the subroutine's code range fails with an
illegal-jump error. -/
def ExecutionFrame.set_ip (f : ExecutionFrame) (pos : Nat) : Except Outcome ExecutionFrame :=
  if pos ≥ f.compiled_fn.end_ix - f.compiled_fn.start_ix then
    .error (.vmErr (VMError.new "Illegal jump" .IllegalJump none 0))
  else
    .ok { f with ip := pos }

/-- `boson::vm::stack::CallStack`: the bounded frame stack. -/
structure CallStack where
  stack : List ExecutionFrame
  stack_pointer : Int
  max_size : Nat

/-- `CallStack::new`. -/
def CallStack.new (size : Nat) : CallStack :=
  ⟨[], -1, size⟩

/-- `CallStack::push_frame` (`vm/stack.rs` lines 40-53). -/
def CallStack.push_frame (cs : CallStack) (frame : ExecutionFrame) :
    Except Outcome (Int × CallStack) :=
  if cs.stack_pointer + 1 ≥ (cs.max_size : Int) then
    .error (.vmErr (VMError.new "Stack Overflow!" .CallStackOverflow (some .ICall) 0))
  else
    .ok (cs.stack_pointer + 1,
      { cs with stack := cs.stack ++ [frame], stack_pointer := cs.stack_pointer + 1 })

/-- `CallStack::pop_frame` (`vm/stack.rs` lines 55-69). -/
def CallStack.pop_frame (cs : CallStack) :
    Except Outcome (ExecutionFrame × CallStack) :=
  if cs.stack_pointer = -1 then
    .error (.vmErr (VMError.new "Stack underflow" .CallStackUnderflow (some .IRet) 0))
  else
    match cs.stack.getLast? with
    | none => .error (.panicked "CallStack::pop_frame unwrapped an empty pop")
    | some frame =>
      .ok (frame, { cs with stack := cs.stack.dropLast, stack_pointer := cs.stack_pointer - 1 })

end BosonVm

namespace BosonVm

namespace Controls

/-- `Controls::jump` (`vm/controls.rs` lines 49-55): delegate to
`ExecutionFrame::set_ip` and return the position on success. -/
def jump (cf : ExecutionFrame) (pos : Nat) : Except Outcome (Nat × ExecutionFrame) :=
  match cf.set_ip pos with
  | .error e => .error e
  | .ok cf2 => .ok (pos, cf2)

/-- `Controls::pop_n` (`vm/controls.rs` lines 268-286): pop `n` objects,
returning them in pop order (top of stack first).  The data stack is
returned alongside even on failure, mirroring that the Rust `&mut` stack
keeps the successful pops that preceded the failing one. -/
def pop_n (ds : DataStack) (n : Nat) (inst : InstructionKind) :
    Except Outcome (List Object) × DataStack :=
  match n with
  | 0 => (.ok [], ds)
  | m + 1 =>
    match ds.pop_object inst with
    | .error e => (.error e, ds)
    | .ok (obj, ds1) =>
      match pop_n ds1 m inst with
      | (.error e, ds2) => (.error e, ds2)
      | (.ok objs, ds2) => (.ok (obj :: objs), ds2)

/-- `Controls::get_binary_operands` (`vm/controls.rs` lines 202-217).  The
source pops the right operand, then the left operand, but its second error
test re-examines the FIRST pop result (`if right_pop.is_err()`) before
unwrapping both; when only the second pop failed the test passes and
`left_pop.unwrap()` panics. -/
def get_binary_operands (ds : DataStack) (inst : InstructionKind) :
    Except Outcome (Object × Object × DataStack) :=
  match ds.pop_object inst with
  | .error e => .error e
  | .ok (right, ds1) =>
    match ds1.pop_object inst with
    | .error _ =>
      .error (.panicked "Controls::get_binary_operands unwrapped an Err left operand")
    | .ok (left, ds2) => .ok (left, right, ds2)

/-- `Controls::get_index_value` (`vm/controls.rs` lines 288-319).  Pops the
index, then the container; as in `get_binary_operands`, the second error
test re-examines the first pop result (`if popped_idx_result.is_err()`),
so a failing second pop reaches `popped_left_result.unwrap()` and panics.
On success the container is indexed and the result pushed. -/
def get_index_value (ds : DataStack) : Option Outcome × DataStack :=
  match ds.pop_object .IGetIndex with
  | .error e => (some e, ds)
  | .ok (index_obj, ds1) =>
    match ds1.pop_object .IGetIndex with
    | .error _ =>
      (some (.panicked "Controls::get_index_value unwrapped an Err container operand"), ds1)
    | .ok (left_obj, ds2) =>
      match left_obj.get_indexed index_obj with
      | .error msg =>
        (some (.vmErr (VMError.new msg .IndexError (some .IGetIndex) 0)), ds2)
      | .ok v =>
        match ds2.push_object v .IGetIndex with
        | .error e => (some e, ds2)
        | .ok (_, ds3) => (none, ds3)

/-- `Controls::execute_call` (`vm/controls.rs` lines 371-466).  The callee
is popped first.  A built-in handle pops its arguments, restores source
order, and invokes the intrinsic — the intrinsic itself (`builtins.rs`),
together with the platform, globals, constants and thread registry it
receives, is an external collaborator abstracted as the `builtin_exec`
parameter.  A closure context checks arity, computes the base pointer,
reserves `num_locals - num_parameters` slots of `Noval`, sets the stack
pointer to `base_pointer + num_locals`, and yields the new frame.  Any
other callee fails with a stack-corruption error whose message renders
the value via `describe()`. -/
def execute_call (builtin_exec : BuiltinKind → List Object → Except String Object)
    (inst : InstructionKind) (ds : DataStack) (n_args : Nat) :
    Except Outcome (Option ExecutionFrame × DataStack) :=
  match ds.pop_object inst with
  | .error e => .error e
  | .ok (popped_obj, ds1) =>
    match popped_obj with
    | .Builtins func =>
      match pop_n ds1 n_args inst with
      | (.error e, _) => .error e
      | (.ok popped_args, ds2) =>
        let args := popped_args.reverse
        match builtin_exec func args with
        | .error msg =>
          .error (.vmErr (VMError.new msg .BuiltinFunctionError (some inst) 0))
        | .ok result_obj =>
          match ds2.push_object result_obj inst with
          | .error e => .error e
          | .ok (_, ds3) => .ok (none, ds3)
    | .ClosureContext compiled_fn free_objects =>
      if compiled_fn.num_parameters ≠ n_args then
        .error (.vmErr (VMError.new
          ("Function " ++ compiled_fn.name ++ " expects "
            ++ toString compiled_fn.num_parameters ++ " arguments, given " ++ toString n_args)
          .FunctionArgumentsError (some .ICall) 0))
      else
        let frame_bp : Nat :=
          if ds1.stack_pointer ≤ 0 then 0 else usizeSub ds1.stack.length n_args
        let new_frame := ExecutionFrame.new compiled_fn free_objects frame_bp
        let n_locals := compiled_fn.num_locals
        let n_params := compiled_fn.num_parameters
        let local_space := List.replicate (usizeSub n_locals n_params) Object.Noval
        match ds1.push_objects .ICall local_space with
        | .error e => .error e
        | .ok (_, ds2) =>
          let ds3 := { ds2 with
            stack_pointer := ((new_frame.base_pointer + n_locals : Nat) : Int) }
          .ok (some new_frame, ds3)
    | _ =>
      .error (.vmErr (VMError.new ("Cannot call " ++ popped_obj.describe)
        .StackCorruption (some inst) 0))

/-- The `while idx < length` loop of `Controls::build_hash` reads
`popped[idx]` for the key and `popped[idx + 1]` for the value; on an
odd-length vector the final value read indexes out of bounds and panics. -/
def collect_pairs : List Object → Except Outcome (List (Object × Object))
  | [] => .ok []
  | [_] => .error (.panicked "index out of bounds in Controls::build_hash")
  | k :: v :: rest =>
    match collect_pairs rest with
    | .error e => .error e
    | .ok ps => .ok ((k, v) :: ps)

/-- `Controls::build_hash` (`vm/controls.rs` lines 531-567): pop `length`
objects, reverse them back into source order, insert the key/value pairs
left to right into a fresh `HashMap`, and push the resulting table. -/
def build_hash (inst : InstructionKind) (ds : DataStack) (length : Nat) :
    Except Outcome (Int × DataStack) :=
  match pop_n ds length inst with
  | (.error e, _) => .error e
  | (.ok popped_raw, ds1) =>
    let popped := popped_raw.reverse
    match collect_pairs popped with
    | .error e => .error e
    | .ok pairs =>
      let entries := pairs.foldl (fun acc p => hashInsert acc p.1 p.2) []
      match ds1.push_object (Object.HashTable "todo" entries) inst with
      | .error e => .error e
      | .ok (sp, ds2) => .ok (sp, ds2)

/-- `Controls::jump_next_iter` (`vm/controls.rs` lines 667-732): inspect
the top of stack without popping (`get_top_ref`); a non-iterator fails with
an iteration error.  For an iterator, the enumerating variant first reads
the cursor (`get_pos()`, the value prior to the advance the following
`next()` performs), then `next()` advances the iterator in place through
its `RefCell` — the model rewrites the inspected stack slot.
If `next()` returned nothing the iterator is popped and the frame jumps to
`jmp_pos`, yielding `true`; otherwise the element is pushed above the
iterator, the enumerating variant pushes the saved cursor as an integer
above the element, and the result is `false`. -/
def jump_next_iter (ds : DataStack) (jmp_pos : Nat) (frame : ExecutionFrame)
    (enumerate : Bool) : Except Outcome (Bool × DataStack × ExecutionFrame) :=
  match ds.get_top_ref .IIterNext with
  | .error e => .error e
  | .ok top_ref =>
    match top_ref with
    | .Iter elements pos =>
      let current_pos := if enumerate then pos else 0
      if h : pos < elements.length then
        let ds1 := { ds with
          stack := ds.stack.set (usizeCast ds.stack_pointer) (.Iter elements (pos + 1)) }
        match ds1.push_object (elements.get ⟨pos, h⟩) .IIterNext with
        | .error e => .error e
        | .ok (_, ds2) =>
          if enumerate then
            match ds2.push_object (.Int (current_pos : Int)) .IIterNext with
            | .error e => .error e
            | .ok (_, ds3) => .ok (false, ds3, frame)
          else
            .ok (false, ds2, frame)
      else
        match ds.pop_object .IIterNext with
        | .error e => .error e
        | .ok (_, ds1) =>
          match jump frame jmp_pos with
          | .error e => .error e
          | .ok (_, frame2) => .ok (true, ds1, frame2)
    | _ =>
      .error (.vmErr (VMError.new ("Cannot iterate over " ++ top_ref.get_type)
        .IterationError (some .IIter) 0))

/-- `Controls::set_indexed` (`vm/controls.rs` lines 734-766): pop three
objects; the FIRST popped (the old top of stack) becomes the index
(`index_target = popped_objects[0]`), the second the container, and the
THIRD (bottom-most) the stored value (`popped_right = popped_objects[2]`).
The container is cloned (`obj_target.as_ref().clone()`), the clone is
updated via `set_indexed(index, value)`, and the fresh object is pushed —
the original container object is not mutated. -/
def set_indexed (ds : DataStack) : Option Outcome × DataStack :=
  match pop_n ds 3 .ISetIndex with
  | (.error e, ds1) => (some e, ds1)
  | (.ok popped_objects, ds1) =>
    match popped_objects with
    | index_target :: obj_target :: popped_right :: [] =>
      match obj_target.set_indexed index_target popped_right with
      | .error msg =>
        (some (.vmErr (VMError.new msg .IndexError (some .ISetIndex) 0)), ds1)
      | .ok new_object =>
        match ds1.push_object new_object .ISetIndex with
        | .error e => (some e, ds1)
        | .ok (_, ds2) => (none, ds2)
    | _ => (some (.panicked "Controls::set_indexed unwrapped a missing element"), ds1)

/-- `Controls::execute_thread` (`vm/controls.rs` lines 768-884): the very
first statement tests the build-time `ENABLE_CONCURRENCY` flag (here the
`enable_concurrency` parameter) and fails with an illegal-operation error
before touching the stack.  Otherwise the closure is popped, its arity
checked, the arguments popped and reversed, and the thread registry —
an external collaborator (`threads.create_thread_sandbox`, snapshotting
globals and constants) abstracted as the `create_thread_sandbox` and
`wait_and_return` parameters — spawns the worker; without `join` a thread
handle is pushed, with `join` the worker result (or its error) is
propagated. -/
def execute_thread (enable_concurrency : Bool)
    (create_thread_sandbox : CompiledFunction → List Object → List Object → Except String Nat)
    (wait_and_return : Nat → Except String (Except VMError Object))
    (inst : InstructionKind) (ds : DataStack) (n_args : Nat) (join : Bool) :
    Option Outcome × DataStack :=
  if enable_concurrency = false then
    (some (.vmErr (VMError.new "BosonVM has concurrency disabled."
      .IllegalOperation (some inst) 0)), ds)
  else
    match ds.pop_object inst with
    | .error e => (some e, ds)
    | .ok (popped_obj, ds1) =>
      match popped_obj with
      | .ClosureContext compiled_fn free_objects =>
        if compiled_fn.num_parameters ≠ n_args then
          (some (.vmErr (VMError.new
            ("Function " ++ compiled_fn.name ++ " expects "
              ++ toString compiled_fn.num_parameters ++ " arguments, given " ++ toString n_args)
            .FunctionArgumentsError (some inst) 0)), ds1)
        else
          match pop_n ds1 n_args inst with
          | (.error e, ds2) => (some e, ds2)
          | (.ok popped_args, ds2) =>
            let args := popped_args.reverse
            match create_thread_sandbox compiled_fn free_objects args with
            | .error msg =>
              (some (.vmErr (VMError.new msg .ThreadCreateError (some inst) 0)), ds2)
            | .ok th =>
              if join = false then
                match ds2.push_object (.Thread th compiled_fn.name) inst with
                | .error e => (some e, ds2)
                | .ok (_, ds3) => (none, ds3)
              else
                match wait_and_return th with
                | .error msg =>
                  (some (.vmErr (VMError.new msg .ThreadWaitError (some inst) 0)), ds2)
                | .ok (.error e) => (some (.vmErr e), ds2)
                | .ok (.ok result_obj) =>
                  match ds2.push_object result_obj inst with
                  | .error e => (some e, ds2)
                  | .ok (_, ds3) => (none, ds3)
      | _ =>
        (some (.vmErr (VMError.new (popped_obj.get_type ++ " cannot be called as a thread.")
          .ThreadCreateError (some inst) 0)), ds1)

end Controls

end BosonVm

namespace BosonVm

/-- Modelled from the spec (§4.D, §6): the global pool capacity is a
build-time constant (`config.rs` is not among the sources under review);
its concrete value is irrelevant to the claims. -/
def GLOBAL_POOL_SIZE : Nat := 100

/-- Modelled from the spec (§4.D): `GlobalPool` is a fixed-size vector of
object slots, uninitialized slots holding the no-value sentinel, cheaply
clonable for thread spawn (`vm/global.rs` is not among the sources under
review). -/
structure GlobalPool where
  pool : List Object
  max_size : Nat

/-- A fresh global pool, all slots the no-value sentinel. -/
def GlobalPool.new (size : Nat) : GlobalPool :=
  ⟨List.replicate size Object.Noval, size⟩

/-- The in-memory bytecode the compiler delivers (spec §6): a constant pool
and the shared instruction stream (opaque to the claims settled here). -/
structure CompiledBytecode where
  constants : List Object
  instructions : List Nat

/-- Modelled from the spec (§2, §4): of the VM state built by
`BosonVM::new` / `BosonVM::new_state` (`vm/mod.rs` is not among the sources
under review), the claims below observe only the global pool; the stacks
are per-VM and freshly created by both constructors. -/
structure BosonVM where
  globals : GlobalPool

/-- Modelled from the spec: `BosonVM::new(bytecode)` creates a VM with a
fresh global pool. -/
def BosonVM.new (_bytecode : CompiledBytecode) : BosonVM :=
  ⟨GlobalPool.new GLOBAL_POOL_SIZE⟩

/-- Modelled from the spec: `BosonVM::new_state(bytecode, globals)` creates
a VM owning the given (cloned) global pool. -/
def BosonVM.new_state (_bytecode : CompiledBytecode) (globals : GlobalPool) : BosonVM :=
  ⟨globals⟩

/-- `boson::api::ErrorKind` (the payloads of the compile- and parse-error
variants belong to the out-of-scope compiler and parser). -/
inductive ErrorKind where
  | compile_error
  | parser_error
  | vm_error (e : VMError)

/-- The `BosonLang` state observed by `eval_state`: the optional VM kept
between evaluations (parser, compiler and platform are external
collaborators). -/
structure BosonLang where
  vm : Option BosonVM

/-- `BosonLang::eval_state` (`api/mod.rs` lines 189-216).  The bytecode of
the current buffer (`__get_bytecode`, delegating to the out-of-scope parser
and compiler) enters as the `get_bytecode` argument, and the dispatch loop
(`BosonVM::eval_bytecode`, which runs the VM and may mutate it) as the
`eval_bytecode` argument.  On a bytecode error nothing changes and `None`
is returned; otherwise the VM slot is filled — a fresh VM on the first
call, a VM built from a clone of the previous VM's global pool afterwards —
the bytecode is evaluated on it, and the result (or `None` on a VM error)
returned. -/
def eval_state (get_bytecode : Except ErrorKind CompiledBytecode)
    (eval_bytecode : BosonVM → Except VMError Object × BosonVM)
    (lang : BosonLang) : Option Object × BosonLang :=
  match get_bytecode with
  | .error _ => (none, lang)
  | .ok bytecode =>
    let vm1 :=
      match lang.vm with
      | none => BosonVM.new bytecode
      | some prev => BosonVM.new_state bytecode prev.globals
    let res := eval_bytecode vm1
    (res.1.toOption, { lang with vm := some res.2 })


end BosonVm


namespace BosonVm

/-- A list of key/value pairs laid out on the stack the way `BuildHash 2n`
expects them: `k1, v1, ..., kn, vn`, the last value on the top of stack. -/
def flattenPairs : List (Object × Object) → List Object
  | [] => []
  | p :: rest => p.1 :: p.2 :: flattenPairs rest

/-- Record a key in a first-occurrence list of distinct keys (used to count
the distinct keys of a pair sequence). -/
def addKey (seen : List Object) (k : Object) : List Object :=
  if seen.any (fun x => keyEq x k) then seen else seen ++ [k]

/-- The distinct keys of a key sequence, in first-occurrence order. -/
def dedupKeys (ks : List Object) : List Object :=
  ks.foldl addKey []

end BosonVm

namespace BosonVm

/-- Popping from a stack whose top element is exposed as a concatenation. -/
theorem pop_object_concat (base : List Object) (x : Object) (sp : Int) (max : Nat)
    (inst : InstructionKind) (h : ¬ sp = -1) :
    DataStack.pop_object ⟨base ++ [x], sp, max⟩ inst = .ok (x, ⟨base, sp - 1, max⟩) := by
  simp [DataStack.pop_object, h]

/-- `pop_n` pops a suffix of the stack element by element, returning it in
pop order (top of stack first), when the stack pointer addresses the top. -/
theorem pop_n_append (base ext : List Object) (max : Nat) (inst : InstructionKind) :
    Controls.pop_n ⟨base ++ ext, (base.length : Int) + ext.length - 1, max⟩ ext.length inst =
      (.ok ext.reverse, ⟨base, (base.length : Int) - 1, max⟩) := by
  induction ext using List.reverseRecOn with
  | nil => simp [Controls.pop_n]
  | append_singleton init a ih =>
    have hne : ¬ ((base.length : Int) + (init.length : Int) = -1) := by
      omega
    have h1 : base ++ (init ++ [a]) = (base ++ init) ++ [a] := by
      rw [List.append_assoc]
    have h2 : (base.length : Int) + ((init ++ [a]).length : Int) - 1 =
        (base.length : Int) + (init.length : Int) := by
      simp
      omega
    have h3 : (init ++ [a]).length = init.length + 1 := by
      simp
    rw [h1, h2, h3]
    simp only [Controls.pop_n, pop_object_concat (base ++ init) a _ max inst hne, ih]
    simp

/-- `as usize` is the identity on small non-negative values. -/
theorem usizeCast_coe (n : Nat) (h : n < 2 ^ 64) : usizeCast (n : Int) = n := by
  simp [usizeCast]
  omega

/-- Reading the slot just past a prefix yields the appended element. -/
theorem getElem_concat_len (l : List Object) (a : Object) : (l ++ [a])[l.length]? = some a := by
  induction l with
  | nil => rfl
  | cons x xs ih => simp [ih]

/-- Writing the slot just past a prefix replaces the appended element. -/
theorem set_concat (l : List Object) (a y : Object) : (l ++ [a]).set l.length y = l ++ [y] := by
  induction l with
  | nil => rfl
  | cons x xs ih => simp [ih]

/-- C3 (amended): `SetIndex` pops three objects, but the roles are the
REVERSE of the claim's: the old top of stack is the index, the middle the
container, and the bottom-most of the three the stored value.  For a stack
`base ++ [v, c, i]` (index `i` on top) whose pointer addresses the top,
when `c` with `c[i] := v` succeeds as `c2`, the handler replaces the three
operands by the single fresh object `c2` (built from a clone — the model's
value copy — of `c`, which itself is not mutated) and restores the
invariant `stack_pointer = length - 1`. -/
theorem set_indexed_semantics (base : List Object) (v c i c2 : Object) (max : Nat)
    (hset : c.set_indexed i v = .ok c2)
    (hcap : base.length < max) (hmax : max ≤ 2 ^ 64) :
    Controls.set_indexed ⟨base ++ [v, c, i], (base.length : Int) + 2, max⟩ =
      (none, ⟨base ++ [c2], (base.length : Int), max⟩) := by
  have h64 : base.length < 2 ^ 64 := lt_of_lt_of_le hcap hmax
  have hp2 : Controls.pop_n ⟨base ++ [v, c, i], (base.length : Int) + 2, max⟩ 3 .ISetIndex =
      (.ok [i, c, v], ⟨base, (base.length : Int) - 1, max⟩) := by
    have hp := pop_n_append base [v, c, i] max .ISetIndex
    norm_num at hp
    rw [show (base.length : Int) + 3 - 1 = (base.length : Int) + 2 from by ring] at hp
    exact hp
  simp only [Controls.set_indexed, hp2, hset, DataStack.push_object, sub_add_cancel,
    usizeCast_coe base.length h64]
  rw [if_neg (not_le.mpr hcap)]

/-- C3 (counterexample): on the stack the claim describes — bottom to top
the index `1`, the container `[10, 20]`, and the value `0` on top — the
claim's `c' = c with c[i] = v` promises `[10, 0]`; the handler instead
uses the top operand `0` as the index and the bottom operand `1` as the
stored value and produces `[1, 20]`. -/
theorem set_indexed_claim_counterexample :
    Controls.set_indexed ⟨[.Int 1, .Array "a" [.Int 10, .Int 20], .Int 0], 2, 100⟩ =
      (none, ⟨[.Array "a" [.Int 1, .Int 20]], 0, 100⟩) ∧
    Object.Array "a" [.Int 1, .Int 20] ≠ .Array "a" [.Int 10, .Int 0] := by
  exact ⟨rfl, by simp⟩

/-- Witness for C3's amended theorem: setting index 0 of a one-slot array
to 5 through the `SetIndex` stack discipline (index on top). -/
theorem set_indexed_semantics_witness :
    ((Object.Array "a" [.Noval]).set_indexed (.Int 0) (.Int 5) = .ok (.Array "a" [.Int 5])) ∧
    Controls.set_indexed ⟨[.Int 5, .Array "a" [.Noval], .Int 0], 2, 8⟩ =
      (none, ⟨[.Array "a" [.Int 5]], 0, 8⟩) := by
  have h := set_indexed_semantics [] (.Int 5) (.Array "a" [.Noval]) (.Int 0) (.Array "a" [.Int 5]) 8
    rfl (by norm_num) (by norm_num)
  exact ⟨rfl, by simpa using h⟩

/-- C7: `IterNext` on an iterator at the top of stack.  Non-exhausted
cursor: the iterator is advanced in place (not popped), the element under
the old cursor is pushed above it, and the enumerating variant pushes the
pre-advance cursor as an integer above the element; the handler reports
`false`.  Exhausted cursor: the iterator is popped and the frame's
instruction pointer jumps to the operand position; the handler reports
`true`. -/
theorem jump_next_iter_semantics (base elements : List Object) (pos : Nat)
    (max : Nat) (frame : ExecutionFrame) (jmp_pos : Nat) (enumerate : Bool)
    (hcap : base.length + 2 < max) (hmax : max ≤ 2 ^ 64)
    (hjmp : jmp_pos < frame.compiled_fn.end_ix - frame.compiled_fn.start_ix) :
    (∀ h : pos < elements.length,
      Controls.jump_next_iter ⟨base ++ [.Iter elements pos], (base.length : Int), max⟩
          jmp_pos frame enumerate =
        .ok (false,
          ⟨base ++ [.Iter elements (pos + 1), elements.get ⟨pos, h⟩]
              ++ (if enumerate then [.Int (pos : Int)] else []),
            (base.length : Int) + (if enumerate then 2 else 1), max⟩,
          frame)) ∧
    (elements.length ≤ pos →
      Controls.jump_next_iter ⟨base ++ [.Iter elements pos], (base.length : Int), max⟩
          jmp_pos frame enumerate =
        .ok (true, ⟨base, (base.length : Int) - 1, max⟩, { frame with ip := jmp_pos })) := by
  have h64 : base.length < 2 ^ 64 := by omega
  have hne : ¬ ((base.length : Int) = -1) := by omega
  have htop : DataStack.get_top_ref ⟨base ++ [.Iter elements pos], (base.length : Int), max⟩
      .IIterNext = .ok (.Iter elements pos) := by
    simp [DataStack.get_top_ref, hne, usizeCast_coe base.length h64, getElem_concat_len]
  constructor
  · intro h
    simp only [Controls.jump_next_iter, htop]
    rw [dif_pos h]
    simp only [usizeCast_coe base.length h64, set_concat, DataStack.push_object]
    have hc1 : ¬ (usizeCast ((base.length : Int) + 1) ≥ max) := by
      rw [show ((base.length : Int) + 1) = ((base.length + 1 : Nat) : Int) from by push_cast; ring]
      rw [usizeCast_coe (base.length + 1) (by omega)]
      omega
    rw [if_neg hc1]
    cases enumerate with
    | false => simp
    | true =>
      simp only [DataStack.push_object]
      have hc2 : ¬ (usizeCast ((base.length : Int) + 1 + 1) ≥ max) := by
        rw [show ((base.length : Int) + 1 + 1) = ((base.length + 2 : Nat) : Int) from by
          push_cast; ring]
        rw [usizeCast_coe (base.length + 2) (by omega)]
        omega
      rw [if_neg hc2]
      simp
      ring
  · intro h
    simp only [Controls.jump_next_iter, htop]
    rw [dif_neg (by omega : ¬ pos < elements.length)]
    rw [pop_object_concat base (.Iter elements pos) _ max .IIterNext hne]
    simp only [Controls.jump, ExecutionFrame.set_ip]
    rw [if_neg (by omega : ¬ jmp_pos ≥ frame.compiled_fn.end_ix - frame.compiled_fn.start_ix)]

/-- Witness for C7 at a two-element iterator, cursor 0, enumerating: the
iterator advances in place, the element `7` is pushed, and the pre-advance
cursor `0` above it. -/
theorem jump_next_iter_semantics_witness :
    Controls.jump_next_iter ⟨[.Iter [.Int 7, .Int 8] 0], 0, 10⟩ 1 ⟨⟨"f", 0, 0, 0, 5⟩, [], 0, 0⟩ true =
      .ok (false, ⟨[.Iter [.Int 7, .Int 8] 1, .Int 7, .Int 0], 2, 10⟩,
        ⟨⟨"f", 0, 0, 0, 5⟩, [], 0, 0⟩) := by
  have h := (jump_next_iter_semantics [] [.Int 7, .Int 8] 0 10 ⟨⟨"f", 0, 0, 0, 5⟩, [], 0, 0⟩ 1 true
    (by norm_num) (by norm_num) (by norm_num)).1 (by norm_num)
  simpa using h

/-- C6 (amended): for every `Call n`, once the callee has been popped, a
closure context whose subroutine arity differs from `n` fails with a
function-arguments error, and a callee that is neither a built-in handle
nor a closure context fails with a stack-corruption error whose message
renders the value through `describe()` (its printed rendering — not, as
the claim put it, its type name; see the counterexample theorem). -/
theorem execute_call_arity_and_noncallable
    (be : BuiltinKind → List Object → Except String Object) (inst : InstructionKind)
    (ds ds1 : DataStack) (n_args : Nat) (v : Object)
    (hpop : ds.pop_object inst = .ok (v, ds1)) :
    (∀ fn frees, v = .ClosureContext fn frees → fn.num_parameters ≠ n_args →
      Controls.execute_call be inst ds n_args = .error (.vmErr (VMError.new
        ("Function " ++ fn.name ++ " expects " ++ toString fn.num_parameters
          ++ " arguments, given " ++ toString n_args) .FunctionArgumentsError (some .ICall) 0))) ∧
    ((∀ b, v ≠ .Builtins b) → (∀ fn frees, v ≠ .ClosureContext fn frees) →
      Controls.execute_call be inst ds n_args = .error (.vmErr (VMError.new
        ("Cannot call " ++ v.describe) .StackCorruption (some inst) 0))) := by
  constructor
  · rintro fn frees rfl hne
    simp [Controls.execute_call, hpop, hne]
  · intro hb hc
    cases v with
    | Builtins b => exact absurd rfl (hb b)
    | ClosureContext fn frees => exact absurd rfl (hc fn frees)
    | Noval => simp [Controls.execute_call, hpop]
    | Int x => simp [Controls.execute_call, hpop]
    | Float x => simp [Controls.execute_call, hpop]
    | Str x => simp [Controls.execute_call, hpop]
    | Bool x => simp [Controls.execute_call, hpop]
    | Array n e => simp [Controls.execute_call, hpop]
    | HashTable n e => simp [Controls.execute_call, hpop]
    | Subroutine f => simp [Controls.execute_call, hpop]
    | Iter e p => simp [Controls.execute_call, hpop]
    | Thread t n => simp [Controls.execute_call, hpop]

/-- Witness for C6's amended theorem: a 1-parameter closure called with 0
arguments, and a string callee. -/
theorem execute_call_arity_and_noncallable_witness :
    Controls.execute_call (fun _ _ => .error "") .ICall
      ⟨[.ClosureContext ⟨"g", 1, 1, 0, 5⟩ []], 0, 10⟩ 0 =
      .error (.vmErr (VMError.new "Function g expects 1 arguments, given 0"
        .FunctionArgumentsError (some .ICall) 0)) ∧
    Controls.execute_call (fun _ _ => .error "") .ICall ⟨[.Str "hi"], 0, 10⟩ 0 =
      .error (.vmErr (VMError.new "Cannot call hi" .StackCorruption (some .ICall) 0)) := by
  have h1 := (execute_call_arity_and_noncallable (fun _ _ => .error "") .ICall
    ⟨[.ClosureContext ⟨"g", 1, 1, 0, 5⟩ []], 0, 10⟩ ⟨[], -1, 10⟩ 0
    (.ClosureContext ⟨"g", 1, 1, 0, 5⟩ []) (by rfl)).1 ⟨"g", 1, 1, 0, 5⟩ [] rfl (by norm_num)
  have h2 := (execute_call_arity_and_noncallable (fun _ _ => .error "") .ICall
    ⟨[.Str "hi"], 0, 10⟩ ⟨[], -1, 10⟩ 0 (.Str "hi") (by rfl)).2
    (fun b h => Object.noConfusion h) (fun fn frees h => Object.noConfusion h)
  constructor
  · rw [h1]
    rfl
  · rw [h2]
    rfl

/-- C10: `eval_state` on a successfully compiled buffer runs the dispatch
loop on a VM chosen by the persisted state: a fresh VM (fresh global pool,
every slot the no-value sentinel) when no evaluation happened before, and
otherwise a VM constructed from a clone of the previous VM's global pool —
so globals assigned by an earlier evaluation are observable to later
evaluations; either way the (possibly mutated) VM is stored back for the
next call. -/
theorem eval_state_globals_carry_over
    (bc : CompiledBytecode) (f : BosonVM → Except VMError Object × BosonVM) (lang : BosonLang) :
    (lang.vm = none →
      (BosonVM.new bc).globals = GlobalPool.new GLOBAL_POOL_SIZE ∧
      eval_state (.ok bc) f lang =
        ((f (BosonVM.new bc)).1.toOption, ⟨some (f (BosonVM.new bc)).2⟩)) ∧
    (∀ prev, lang.vm = some prev →
      (BosonVM.new_state bc prev.globals).globals = prev.globals ∧
      eval_state (.ok bc) f lang =
        ((f (BosonVM.new_state bc prev.globals)).1.toOption,
          ⟨some (f (BosonVM.new_state bc prev.globals)).2⟩)) := by
  constructor
  · intro h
    exact ⟨rfl, by simp [eval_state, h]⟩
  · intro prev h
    exact ⟨rfl, by simp [eval_state, h]⟩

/-- Witness for C10: a second evaluation starting from a stored VM whose
pool holds `42` runs on exactly that pool. -/
theorem eval_state_globals_carry_over_witness :
    (BosonVM.new_state ⟨[], []⟩ ⟨[.Int 42], 3⟩).globals = (⟨[.Int 42], 3⟩ : GlobalPool) ∧
    eval_state (.ok ⟨[], []⟩) (fun v => (.ok .Noval, v)) ⟨some ⟨⟨[.Int 42], 3⟩⟩⟩ =
      (some .Noval, ⟨some ⟨⟨[.Int 42], 3⟩⟩⟩) := by
  have h := (eval_state_globals_carry_over ⟨[], []⟩ (fun v => (.ok .Noval, v))
    ⟨some ⟨⟨[.Int 42], 3⟩⟩⟩).2 ⟨⟨[.Int 42], 3⟩⟩ rfl
  refine ⟨h.1, ?_⟩
  rw [h.2]
  rfl

end BosonVm

namespace NplangcAlu

/-- C1: the claim says that for numeric operands with a nonzero right
operand, `div` returns the quotient and `modulus` the remainder, with any
float-involving pair producing the float quotient or remainder.  Evaluating
the code at a float-int pair shows that both `div` and `modulus` return the
PRODUCT of the operands in the `(Float, Int)` arm: `div 6.0 3 = 18.0` while
the quotient is `2`, and `modulus 7.0 2 = 14.0` while the remainder is `1`.
The other three numeric arms do divide, so this arm is a slip in the code. -/
theorem div_modulus_float_int_multiply :
    Arithmetic.div (.Float 6) (.Int 3) = .ok (.Float 18) ∧
    Arithmetic.modulus (.Float 7) (.Int 2) = .ok (.Float 14) ∧
    (6 : Rat) / 3 = 2 ∧ fmod 7 2 = 1 ∧ (18 : Rat) ≠ 2 ∧ (14 : Rat) ≠ 1 := by
  have h : Int.tdiv 7 2 = 3 := by decide
  refine ⟨by norm_num [Arithmetic.div], by norm_num [Arithmetic.modulus], by norm_num,
    by norm_num [fmod, ratTrunc, h], by norm_num, by norm_num⟩

/-- C5: for every pair of numeric operands whose right operand is the zero
of its numeric type (integer `0` or float `0.0`, covering all four numeric
type combinations), both `div` and `modulus` fail with a divide-by-zero
error: every numeric arm of both kernels tests the divisor against zero
before computing, so no value is produced and no division is attempted. -/
theorem div_modulus_zero_divisor (l r : Object) (hl : isNumeric l = true)
    (hr : isNumericZero r = true) :
    errKind (Arithmetic.div l r) = some .DivideByZeroError ∧
    errKind (Arithmetic.modulus l r) = some .DivideByZeroError := by
  cases l <;> cases r <;>
    simp_all [isNumeric, isNumericZero, Arithmetic.div, Arithmetic.modulus, errKind]

/-- Witness for C5 at the concrete pair `5.0 / 0`. -/
theorem div_modulus_zero_divisor_witness :
    errKind (Arithmetic.div (.Float 5) (.Int 0)) = some .DivideByZeroError ∧
    errKind (Arithmetic.modulus (.Float 5) (.Int 0)) = some .DivideByZeroError :=
  div_modulus_zero_divisor (.Float 5) (.Int 0) rfl rfl

end NplangcAlu

namespace BosonVm

/-- C2: the claim says `stack_pointer = stack.length - 1` holds on both
stacks after every non-failing instruction, in particular right after a
`Call` on a closure.  Evaluating `execute_call` on a data stack holding
just a closure of arity 0 with 2 locals shows the handler leaves
`stack_pointer = base_pointer + num_locals = 2`, which equals
`stack.length`, one more than `stack.length - 1`: the final assignment
`ds.stack_pointer = (new_frame.base_pointer + n_locals) as i64` overshoots
the invariant that `DataStack::get_top_ref` (used by `IterNext`) relies
on. -/
theorem execute_call_sp_off_by_one :
    ∃ frame ds2,
      Controls.execute_call (fun _ _ => .error "") .ICall
        ⟨[.ClosureContext ⟨"f", 0, 2, 0, 10⟩ []], 0, 100⟩ 0 = .ok (some frame, ds2) ∧
      ds2.stack_pointer = (ds2.stack.length : Int) ∧
      ds2.stack_pointer ≠ (ds2.stack.length : Int) - 1 := by
  refine ⟨⟨⟨"f", 0, 2, 0, 10⟩, [], 0, 0⟩, ⟨[.Noval, .Noval], 2, 100⟩, ?_, by norm_num, by norm_num⟩
  rfl

/-- C4: the claim says a handler popping more objects than the data stack
holds surfaces a stack-underflow `VMError`; in particular a binary operator
or `GetIndex` with exactly one object on the stack.  Evaluating the code on
the one-object stack shows both `get_binary_operands` and
`get_index_value` PANIC instead (their second underflow test re-examines
the first pop's result, so the failing second pop is unwrapped), rather
than returning the stack-underflow error. -/
theorem binary_and_index_underflow_panics :
    Controls.get_binary_operands ⟨[.Int 5], 0, 100⟩ .IAdd =
      .error (.panicked "Controls::get_binary_operands unwrapped an Err left operand") ∧
    Controls.get_index_value ⟨[.Int 5], 0, 100⟩ =
      (some (.panicked "Controls::get_index_value unwrapped an Err container operand"),
        ⟨[], -1, 100⟩) := by
  exact ⟨rfl, rfl⟩

/-- C8: with the build-time concurrency flag disabled, `execute_thread`
(both the `LaunchThread` and the `LaunchAndJoin` instruction, for every
thread registry, stack, argument count and join mode) fails at its first
statement with an illegal-operation error and returns the data stack
untouched — no closure or argument is popped. -/
theorem execute_thread_concurrency_disabled
    (create_thread_sandbox : CompiledFunction → List Object → List Object → Except String Nat)
    (wait_and_return : Nat → Except String (Except VMError Object))
    (inst : InstructionKind) (ds : DataStack) (n_args : Nat) (join : Bool) :
    Controls.execute_thread false create_thread_sandbox wait_and_return inst ds n_args join =
      (some (.vmErr (VMError.new "BosonVM has concurrency disabled."
        .IllegalOperation (some inst) 0)), ds) :=
  rfl

/-- C6 (counterexample part): calling the non-callable `Int 10` does fail
with a stack-corruption error, but its message is built from
`describe()` — the value's printed rendering "10" — and the value's type
name "int" does not occur in the message "Cannot call 10", contradicting
the claim that the message names the value's type. -/
theorem execute_call_noncallable_message_lacks_type :
    Controls.execute_call (fun _ _ => .error "") .ICall ⟨[.Int 10], 0, 100⟩ 0 =
      .error (.vmErr (VMError.new "Cannot call 10" .StackCorruption (some .ICall) 0)) ∧
    Object.get_type (.Int 10) = "int" ∧
    ¬ ("int".toList <:+: "Cannot call 10".toList) := by
  exact ⟨rfl, rfl, by decide⟩

end BosonVm

namespace BosonVm

/-- The stack layout of `n` pairs occupies `2n` slots. -/
theorem flattenPairs_length (ps : List (Object × Object)) :
    (flattenPairs ps).length = 2 * ps.length := by
  induction ps with
  | nil => rfl
  | cons p tl ih =>
    simp [flattenPairs, ih]
    omega

/-- Key equality holds exactly between equal hashable values (which makes
it symmetric and transitive). -/
theorem keyEq_iff (a b : Object) : keyEq a b = true ↔ (isHashableKey a = true ∧ a = b) := by
  cases a <;> cases b <;> simp [keyEq, isHashableKey]

/-- Lookup steps through one entry. -/
theorem hashLookup_cons (a b : Object) (t : List (Object × Object)) (k : Object) :
    hashLookup ((a, b) :: t) k = if keyEq a k then some b else hashLookup t k := by
  by_cases h : keyEq a k = true <;> simp [hashLookup, List.find?_cons, h]

/-- Lookup after insertion: the inserted value under the inserted key,
everything else untouched. -/
theorem hashLookup_insert (m : List (Object × Object)) (k v k2 : Object) :
    hashLookup (hashInsert m k v) k2 = if keyEq k k2 then some v else hashLookup m k2 := by
  induction m with
  | nil =>
    by_cases h : keyEq k k2 = true <;>
      simp [hashInsert, hashLookup, List.find?_cons, h]
  | cons p rest ih =>
    obtain ⟨a, b⟩ := p
    by_cases h1 : keyEq a k = true
    · obtain ⟨ha, rfl⟩ := (keyEq_iff a k).mp h1
      by_cases h2 : keyEq a k2 = true
      · simp [hashInsert, h1, hashLookup_cons, h2]
      · simp [hashInsert, h1, hashLookup_cons, h2]
    · by_cases h2 : keyEq a k2 = true
      · have hk : ¬ (keyEq k k2 = true) := by
          intro hkk
          obtain ⟨_, rfl⟩ := (keyEq_iff k k2).mp hkk
          exact h1 h2
        simp [hashInsert, h1, hashLookup_cons, h2, hk]
      · simp [hashInsert, h1, hashLookup_cons, h2, ih]

/-- Folding a pair sequence into a table: each key maps to the value of its
LAST pair in the sequence, keys without a pair fall back to the initial
table. -/
theorem hashLookup_fold (pairs m : List (Object × Object)) (k : Object) :
    hashLookup (pairs.foldl (fun acc p => hashInsert acc p.1 p.2) m) k =
      (match (pairs.filter (fun p => keyEq p.1 k)).getLast? with
        | some p => some p.2
        | none => hashLookup m k) := by
  induction pairs generalizing m with
  | nil => simp
  | cons a tl ih =>
    simp only [List.foldl_cons]
    rw [ih (hashInsert m a.1 a.2)]
    by_cases ha : keyEq a.1 k = true
    · rw [List.filter_cons_of_pos (by simpa using ha)]
      cases hf : tl.filter (fun p => keyEq p.1 k) with
      | nil => simp [hf, hashLookup_insert, ha]
      | cons q qs =>
        simp only [hf, List.getLast?_cons_cons]
        cases hq : (q :: qs).getLast? with
        | none =>
          rw [List.getLast?_eq_none_iff] at hq
          exact absurd hq (by simp)
        | some r => simp
    · rw [List.filter_cons_of_neg (by simpa using ha)]
      cases hf : (tl.filter (fun p => keyEq p.1 k)).getLast? with
      | none => simp [hf, hashLookup_insert, ha]
      | some q => simp

/-- `addKey` commutes with an unequal head key. -/
theorem addKey_cons_of_neg (a : Object) (l : List Object) (k : Object)
    (h : ¬ keyEq a k = true) : addKey (a :: l) k = a :: addKey l k := by
  by_cases h2 : l.any (fun x => keyEq x k) = true <;>
    simp [addKey, List.any_cons, h, h2]

/-- The keys of a table after insertion are the old keys with the new key
recorded. -/
theorem map_fst_hashInsert (m : List (Object × Object)) (k v : Object) :
    (hashInsert m k v).map Prod.fst = addKey (m.map Prod.fst) k := by
  induction m with
  | nil => simp [hashInsert, addKey]
  | cons p rest ih =>
    by_cases h : keyEq p.1 k = true
    · simp [hashInsert, h, addKey, List.any_cons]
    · simp only [hashInsert, if_neg h, List.map_cons, ih]
      rw [addKey_cons_of_neg p.1 (rest.map Prod.fst) k h]

/-- The keys of a folded table are the deduplicated pair keys appended to
the initial keys. -/
theorem map_fst_fold (pairs m : List (Object × Object)) :
    ((pairs.foldl (fun acc p => hashInsert acc p.1 p.2) m).map Prod.fst) =
      pairs.foldl (fun seen p => addKey seen p.1) (m.map Prod.fst) := by
  induction pairs generalizing m with
  | nil => simp
  | cons a tl ih => simp [ih, map_fst_hashInsert]

/-- The loop of `build_hash` reassembles exactly the pairs laid out on the
stack. -/
theorem collect_pairs_flatten (ps : List (Object × Object)) :
    Controls.collect_pairs (flattenPairs ps) = .ok ps := by
  induction ps with
  | nil => rfl
  | cons p tl ih => simp [flattenPairs, Controls.collect_pairs, ih]

/-- C9: `BuildHash 2n` over pairs with duplicate keys.  The handler pops
the `2n` operands, pushes one hash table in their place, and that table
maps every key to the value of the LAST pair with that key in source order
(the pair nearest the top of the stack) — earlier pairs for the key are
overwritten by `HashMap::insert` — while the table's length counts the
distinct keys only. -/
theorem build_hash_last_wins (base : List Object) (pairs : List (Object × Object)) (max : Nat)
    (hcap : base.length < max) (hmax : max ≤ 2 ^ 64) :
    Controls.build_hash .IBuildHash
        ⟨base ++ flattenPairs pairs,
          (base.length : Int) + ((2 * pairs.length : Nat) : Int) - 1, max⟩
        (2 * pairs.length) =
      .ok ((base.length : Int),
        ⟨base ++ [.HashTable "todo" (pairs.foldl (fun acc p => hashInsert acc p.1 p.2) [])],
          (base.length : Int), max⟩) ∧
    (∀ k, hashLookup (pairs.foldl (fun acc p => hashInsert acc p.1 p.2) []) k =
      ((pairs.filter (fun p => keyEq p.1 k)).getLast?).map Prod.snd) ∧
    (pairs.foldl (fun acc p => hashInsert acc p.1 p.2) []).length =
      (dedupKeys (pairs.map Prod.fst)).length := by
  have h64 : base.length < 2 ^ 64 := lt_of_lt_of_le hcap hmax
  refine ⟨?_, ?_, ?_⟩
  · have hp := pop_n_append base (flattenPairs pairs) max .IBuildHash
    rw [flattenPairs_length] at hp
    rw [show (2 * pairs.length) = (flattenPairs pairs).length from (flattenPairs_length pairs).symm]
    rw [flattenPairs_length]
    simp only [Controls.build_hash, hp, List.reverse_reverse, collect_pairs_flatten,
      DataStack.push_object, sub_add_cancel, usizeCast_coe base.length h64]
    rw [if_neg (not_le.mpr hcap)]
  · intro k
    rw [hashLookup_fold]
    cases hf : (pairs.filter (fun p => keyEq p.1 k)).getLast? with
    | none => simp [hashLookup]
    | some q => simp
  · rw [show ((pairs.foldl (fun acc p => hashInsert acc p.1 p.2) []).length =
        ((pairs.foldl (fun acc p => hashInsert acc p.1 p.2) []).map Prod.fst).length)
      from (List.length_map _ _).symm]
    rw [map_fst_fold]
    simp [dedupKeys, List.foldl_map]

/-- Witness for C9: two pairs with the equal key `"a"` build a one-entry
table holding the topmost pair's value `2`. -/
theorem build_hash_last_wins_witness :
    Controls.build_hash .IBuildHash
        ⟨[.Str "a", .Int 1, .Str "a", .Int 2], 3, 10⟩ 4 =
      .ok (0, ⟨[.HashTable "todo" [(.Str "a", .Int 2)]], 0, 10⟩) ∧
    hashLookup [((Object.Str "a"), Object.Int 2)] (.Str "a") = some (.Int 2) := by
  have h := build_hash_last_wins [] [(.Str "a", .Int 1), (.Str "a", .Int 2)] 10
    (by norm_num) (by norm_num)
  refine ⟨?_, ?_⟩
  · have h1 := h.1
    norm_num [flattenPairs] at h1
    convert h1 using 2
  · have h2 := h.2.1 (.Str "a")
    simpa [List.filter, keyEq] using h2

end BosonVm
